import Mathlib

/-!
Verification development for the myTV playlist generator
(`scripts/generate_playlist.py`).

The script is a single sequential pipeline:
1. fetch four playlist sources, merge them into one combined document and
   collect the distinct `tvg-id` values;
2. load the iptv-org channel registry (CSV) into a map id → {name, lang};
3. load the EPG channel index (JSON) into a map id → {site, site_id};
4. enrich every collected id from both maps, POST the payload to the
   EPG fetcher and persist the (possibly re-compressed) response.

Remote calls are modelled by their outcomes (`Option` valued inputs);
the gzip codec of the standard library is modelled by a pair of functions
given as parameters together with a round-trip hypothesis.
-/

namespace MyTV

/-! ### Python string primitives (over `List Char`) -/

/-- Python whitespace, as used by `str.strip()`. -/
def isPyWs (c : Char) : Bool :=
  c = ' ' || c = '\t' || c = '\n' || c = '\r' || c = '\x0b' || c = '\x0c'

/-- Python `str.strip()`: drop whitespace from both ends. -/
def pyStrip (l : List Char) : List Char :=
  ((l.dropWhile isPyWs).reverse.dropWhile isPyWs).reverse

/-- Python `str.strip('"')`: drop double quotes from both ends. -/
def stripQ (l : List Char) : List Char :=
  ((l.dropWhile (· = '"')).reverse.dropWhile (· = '"')).reverse

/-- Does `l` start with `pat`? -/
def startsWith : List Char → List Char → Bool
  | [], _ => true
  | _ :: _, [] => false
  | p :: ps, c :: cs => p = c && startsWith ps cs

/-- Python `pat in s` (substring test) for a non-degenerate pattern:
some position of `l` starts with `pat`. -/
def containsSeq (pat : List Char) : List Char → Bool
  | [] => startsWith pat []
  | l@(_ :: cs) => startsWith pat l || containsSeq pat cs

/-- Fuelled worker for `removeAll`.  With fuel `≥ l.length` it removes the
left-to-right non-overlapping occurrences of `pat` from `l`, exactly like
Python's `l.replace(pat, "")`. -/
def removeAllGo (pat : List Char) : Nat → List Char → List Char
  | 0, l => l
  | _ + 1, [] => []
  | n + 1, l@(c :: cs) =>
    if startsWith pat l ∧ pat ≠ [] then removeAllGo pat n (l.drop pat.length)
    else c :: removeAllGo pat n cs

/-- Python `l.replace(pat, "")`. -/
def removeAll (pat l : List Char) : List Char :=
  removeAllGo pat l.length l

/-- Fuelled worker for `countSeq`. -/
def countSeqGo (pat : List Char) : Nat → List Char → Nat
  | 0, _ => 0
  | _ + 1, [] => 0
  | n + 1, l@(_ :: cs) =>
    if startsWith pat l ∧ pat ≠ [] then 1 + countSeqGo pat n (l.drop pat.length)
    else countSeqGo pat n cs

/-- `len(re.findall(pat, l))` for a literal pattern: number of
left-to-right non-overlapping occurrences. -/
def countSeq (pat l : List Char) : Nat :=
  countSeqGo pat l.length l

/-- Fuelled worker for `tvgScan`: the matches of `tvg-id="([^"]+)"`.
At each position: if the text starts with `tvg-id="` and a non-empty
quote-free capture closed by `"` follows, emit the capture and continue
after the closing quote; otherwise advance one character. -/
def tvgScanGo : Nat → List Char → List (List Char)
  | 0, _ => []
  | _ + 1, [] => []
  | n + 1, l@(_ :: cs) =>
    if startsWith ("tvg-id=\"").data l then
      let rest := l.drop 8
      let cap := rest.takeWhile (· ≠ '"')
      if cap ≠ [] ∧ cap.length < rest.length then
        cap :: tvgScanGo n (rest.drop (cap.length + 1))
      else tvgScanGo n cs
    else tvgScanGo n cs

/-- All captures of `re.finditer(r'tvg-id="([^"]+)"', content)`. -/
def tvgScan (l : List Char) : List (List Char) :=
  tvgScanGo l.length l

/-- Split a character list at every occurrence of `sep`
(Python `str.split(sep)` for a one-character separator). -/
def splitChGo (sep : Char) (cur : List Char) : List Char → List (List Char)
  | [] => [cur.reverse]
  | c :: cs =>
    if c = sep then cur.reverse :: splitChGo sep [] cs
    else splitChGo sep (c :: cur) cs

def splitCh (sep : Char) (l : List Char) : List (List Char) :=
  splitChGo sep [] l

/-- Quote-aware CSV split: `re.split(r',(?=(?:[^"]*"[^"]*")*[^"]*$)', line)`
splits at a comma exactly when the number of double quotes to its right is
even. -/
def csvSplitGo (cur : List Char) : List Char → List (List Char)
  | [] => [cur.reverse]
  | c :: cs =>
    if c = ',' ∧ cs.count '"' % 2 = 0 then cur.reverse :: csvSplitGo [] cs
    else csvSplitGo (c :: cur) cs

def csvSplit (l : List Char) : List (List Char) :=
  csvSplitGo [] l

/-- Concatenation of a list of strings. -/
def concatStrs : List String → String
  | [] => ""
  | s :: rest => s ++ concatStrs rest

/-! ### Step 1 — fetch and aggregate -/

/-- The `#EXTM3U` document marker. -/
def markerData : List Char := ("#EXTM3U").data

/-- The `#EXTINF` per-entry marker counted by the fetch loop. -/
def extinfData : List Char := ("#EXTINF").data

/-- Fetch outcomes of the four playlist sources, in the declared order
`country, news, movies, sports`; `none` is a failed fetch. -/
structure Outcomes where
  country : Option String
  news : Option String
  movies : Option String
  sports : Option String
deriving DecidableEq

/-- The declared, ordered source list the loop iterates over. -/
def srcItems (o : Outcomes) : List (String × Option String) :=
  [("country", o.country), ("news", o.news), ("movies", o.movies), ("sports", o.sports)]

/-- The texts of the successfully fetched sources, in declared order. -/
def successTexts (o : Outcomes) : List String :=
  (srcItems o).filterMap (fun it => it.2)

/-- The `(label, text)` pairs of the successfully fetched sources. -/
def successItems (o : Outcomes) : List (String × String) :=
  (srcItems o).filterMap (fun it => it.2.map (fun t => (it.1, t)))

/-- `channel_ids.add(cid)` guarded by `if cid:` — insert a non-empty
identifier if not already present. -/
def insertId (acc : List String) (cid : String) : List String :=
  if cid = "" then acc else if cid ∈ acc then acc else acc ++ [cid]

/-- Scan one source text for `tvg-id` values and add the stripped
non-empty ones to the accumulated identifier list. -/
def addIds (acc : List String) (content : String) : List String :=
  (tvgScan content.data).foldl (fun a v => insertId a (String.mk (pyStrip v))) acc

/-- The banner inserted before each source section. -/
def bannerFor (cc label : String) : String :=
  let heading := if label = "country" then "LOCAL - " ++ cc.toUpper else label.toUpper
  "# ======================================\n# " ++ heading ++
    "\n# ======================================\n"

/-- `content.replace("#EXTM3U", "").strip()` — the body appended for a
successfully fetched source. -/
def bodyOf (content : String) : String :=
  String.mk (pyStrip (removeAll markerData content.data))

/-- The full block a successful source contributes to the combined text. -/
def sectionBlock (cc : String) (it : String × String) : String :=
  bannerFor cc it.1 ++ bodyOf it.2 ++ "\n\n"

/-- Mutable state of the fetch loop: the combined document, the identifier
set (as an insertion-ordered duplicate-free list) and the per-source counts. -/
structure Agg where
  combined : String
  ids : List String
  totals : List (String × Nat)
deriving DecidableEq

/-- One iteration of the fetch loop (lines 29–46): a failure records a zero
count; a success appends the banner and stripped body, accumulates the
`tvg-id` values and records the `#EXTINF` count. -/
def stepSource (cc : String) (a : Agg) : String × Option String → Agg
  | (label, none) => { a with totals := a.totals ++ [(label, 0)] }
  | (label, some t) =>
    { combined := a.combined ++ bannerFor cc label ++ bodyOf t ++ "\n\n"
      ids := addIds a.ids t
      totals := a.totals ++ [(label, countSeq extinfData t.data)] }

/-- The state before the loop: `combined = "#EXTM3U\n\n"`, no ids, no totals. -/
def initAgg : Agg := { combined := "#EXTM3U\n\n", ids := [], totals := [] }

/-- The whole fetch-and-merge step. -/
def aggregate (cc : String) (o : Outcomes) : Agg :=
  (srcItems o).foldl (stepSource cc) initAgg

/-! ### Step 2 — channel registry (CSV) -/

/-- One registry record: display name and primary language. -/
structure DbMeta where
  name : String
  lang : String
deriving DecidableEq

/-- Parse one registry line (lines 61–67): quote-aware split, at least 7
fields, identifier from field 0, name from field 1, language from field 6
truncated at the first `;`; a record with an empty identifier is dropped. -/
def parseDbLine (line : List Char) : Option (String × DbMeta) :=
  let fields := csvSplit line
  if 7 ≤ fields.length then
    let chId := stripQ (pyStrip (fields.getD 0 []))
    let name := stripQ (pyStrip (fields.getD 1 []))
    let lang := pyStrip ((stripQ (pyStrip (fields.getD 6 []))).takeWhile (· ≠ ';'))
    if chId ≠ [] then some (String.mk chId, ⟨String.mk name, String.mk lang⟩)
    else none
  else none

/-- `channel_db[ch_id] = {...}` — overwrite the mapping at the parsed key. -/
def dbStep (acc : String → Option DbMeta) (line : List Char) : String → Option DbMeta :=
  match parseDbLine line with
  | some kv => fun k => if k = kv.1 then some kv.2 else acc k
  | none => acc

/-- The registry load (lines 52–70): a failed fetch yields the empty
mapping; otherwise strip the text, split into lines, skip the header and
fold the records into the mapping. -/
def channelDbOf : Option String → String → Option DbMeta
  | none => fun _ => none
  | some txt => ((splitCh '\n' (pyStrip txt.data)).drop 1).foldl dbStep (fun _ => none)

/-! ### Step 3 — EPG channel index (JSON) -/

/-- One object of the guide-provider index, with the three optional
fields the script reads. -/
structure EpgObj where
  xmltv_id : Option String
  site : Option String
  site_id : Option String
deriving DecidableEq

/-- The value stored for a retained index object. -/
structure EpgVal where
  site : String
  site_id : String
deriving DecidableEq

/-- One iteration of the index loop (lines 77–82): keep an object only if
its `xmltv_id` is present and non-empty. -/
def epgStep (acc : String → Option EpgVal) (ch : EpgObj) : String → Option EpgVal :=
  match ch.xmltv_id with
  | some id =>
    if id ≠ "" then
      fun k => if k = id then some ⟨ch.site.getD "", ch.site_id.getD ""⟩ else acc k
    else acc
  | none => acc

def epgFold (objs : List EpgObj) : String → Option EpgVal :=
  objs.foldl epgStep (fun _ => none)

/-- The index load (lines 73–85): a failed fetch yields the empty mapping. -/
def epgMapOf : Option (List EpgObj) → String → Option EpgVal
  | none => fun _ => none
  | some objs => epgFold objs

/-! ### Step 4 — enrichment and persistence -/

/-- An enriched channel entry (lines 96–105). -/
structure Entry where
  xmltv_id : String
  name : Option String
  lang : Option String
  site : Option String
  site_id : Option String
deriving DecidableEq

/-- Build the entry for one identifier: seed with the identifier, merge the
registry pair if present, merge the guide pair if present. -/
def buildEntry (db : String → Option DbMeta) (epg : String → Option EpgVal)
    (cid : String) : Entry :=
  let e0 : Entry := ⟨cid, none, none, none, none⟩
  let e1 := match db cid with
    | some m => { e0 with name := some m.name, lang := some m.lang }
    | none => e0
  match epg cid with
  | some v => { e1 with site := some v.site, site_id := some v.site_id }
  | none => e1

/-- The full enrichment payload. -/
def enrichedOf (db : String → Option DbMeta) (epg : String → Option EpgVal)
    (ids : List String) : List Entry :=
  ids.map (buildEntry db epg)

/-- The EPG fetcher's response, as far as the script inspects it. -/
structure HttpResponse where
  contentType : String
  contentEncoding : String
  body : List Nat
deriving DecidableEq

/-- `"gzip" in ce or "gzip" in ct` (line 124). -/
def gzipDeclared (r : HttpResponse) : Bool :=
  containsSeq ("gzip").data r.contentEncoding.data ||
    containsSeq ("gzip").data r.contentType.data

/-- Lines 124–127: persist the body as-is when the response is declared
gzip-encoded, otherwise compress it first. -/
def persistEpg (compress : List Nat → List Nat) (r : HttpResponse) : List Nat :=
  if gzipDeclared r then r.body else compress r.body

/-- How the enrichment stage ended. -/
inductive EpgOutcome where
  | skippedNoUrl
  | skippedNoIds
  | postFailed
  | saved (bytes : List Nat)
deriving DecidableEq

/-- A file written by the script, in temporal order of writing. -/
inductive FWrite where
  | text (path : String) (content : String)
  | bin (path : String) (content : List Nat)
deriving DecidableEq

/-- The observable result of one pipeline run. -/
structure PipelineRun where
  combined : String
  ids : List String
  totals : List (String × Nat)
  db : String → Option DbMeta
  epgMap : String → Option EpgVal
  payload : Option (List Entry)
  epgOutcome : EpgOutcome
  writes : List FWrite

/-- The whole script, with every remote interaction given by its outcome:
`o` the four playlist fetches, `reg` the registry fetch, `idx` the index
fetch, `url` the configured `EPG_FETCHER_URL`, `post` the POST outcome
(`none` = network failure or error status) and `compress` the gzip encoder.
The playlist file is written before the enrichment stage runs (line 48). -/
def runPipeline (cc : String) (o : Outcomes) (reg : Option String)
    (idx : Option (List EpgObj)) (url : String) (post : Option HttpResponse)
    (compress : List Nat → List Nat) : PipelineRun :=
  let agg := aggregate cc o
  let db := channelDbOf reg
  let epg := epgMapOf idx
  let playlistW := FWrite.text "docs/playlist.m3u8" agg.combined
  if url = "" then
    ⟨agg.combined, agg.ids, agg.totals, db, epg, none, EpgOutcome.skippedNoUrl, [playlistW]⟩
  else if agg.ids = [] then
    ⟨agg.combined, agg.ids, agg.totals, db, epg, none, EpgOutcome.skippedNoIds, [playlistW]⟩
  else
    let payload := enrichedOf db epg agg.ids
    match post with
    | none =>
      ⟨agg.combined, agg.ids, agg.totals, db, epg, some payload,
        EpgOutcome.postFailed, [playlistW]⟩
    | some r =>
      ⟨agg.combined, agg.ids, agg.totals, db, epg, some payload,
        EpgOutcome.saved (persistEpg compress r),
        [playlistW, FWrite.bin "docs/epg.xml.gz" (persistEpg compress r)]⟩

/-! ### Lemmas about the string primitives -/

lemma startsWith_length {pat l : List Char} (h : startsWith pat l = true) :
    pat.length ≤ l.length := by
  induction pat generalizing l with
  | nil => simp
  | cons p ps ih =>
    cases l with
    | nil => simp [startsWith] at h
    | cons c cs =>
      simp only [startsWith, Bool.and_eq_true] at h
      simpa using ih h.2

lemma startsWith_append_self (pat xs : List Char) :
    startsWith pat (pat ++ xs) = true := by
  induction pat with
  | nil => simp [startsWith]
  | cons p ps ih => simp [startsWith, ih]

lemma removeAllGo_nil (pat : List Char) : ∀ n, removeAllGo pat n [] = []
  | 0 => rfl
  | _ + 1 => rfl

lemma removeAllGo_fuel (pat : List Char) (m : Nat) :
    ∀ (n : Nat) (l : List Char), l.length ≤ m → l.length ≤ n →
      removeAllGo pat m l = removeAllGo pat n l := by
  induction m with
  | zero =>
    intro n l hm _
    have hl : l = [] := List.length_eq_zero.mp (Nat.le_zero.mp hm)
    subst hl
    rw [removeAllGo_nil, removeAllGo_nil]
  | succ m ih =>
    intro n l hm hn
    cases l with
    | nil => rw [removeAllGo_nil, removeAllGo_nil]
    | cons c cs =>
      cases n with
      | zero => simp at hn
      | succ n =>
        simp only [removeAllGo]
        by_cases h : startsWith pat (c :: cs) = true ∧ pat ≠ []
        · rw [if_pos h, if_pos h]
          have h1 : 1 ≤ pat.length := List.length_pos.mpr h.2
          apply ih
          · simp only [List.length_drop, List.length_cons] at *
            omega
          · simp only [List.length_drop, List.length_cons] at *
            omega
        · rw [if_neg h, if_neg h]
          have hm' : cs.length ≤ m := by
            simp only [List.length_cons] at hm; omega
          have hn' : cs.length ≤ n := by
            simp only [List.length_cons] at hn; omega
          exact congrArg (c :: ·) (ih n cs hm' hn')

lemma removeAllGo_not_contains (pat : List Char) (n : Nat) :
    ∀ l, containsSeq pat l = false → removeAllGo pat n l = l := by
  induction n with
  | zero => intro l _; rfl
  | succ n ih =>
    intro l h
    cases l with
    | nil => rfl
    | cons c cs =>
      simp only [containsSeq, Bool.or_eq_false_iff] at h
      simp only [removeAllGo]
      rw [if_neg fun hc => absurd hc.1 (by simp [h.1])]
      exact congrArg (c :: ·) (ih cs h.2)

/-- Python `l.replace(pat, "")` is the identity when `pat` never occurs. -/
lemma removeAll_not_contains {pat l : List Char} (h : containsSeq pat l = false) :
    removeAll pat l = l :=
  removeAllGo_not_contains pat l.length l h

/-- A leading occurrence of the pattern is removed and replacement
continues on the remainder. -/
lemma removeAll_append_self (pat xs : List Char) (hp : pat ≠ []) :
    removeAll pat (pat ++ xs) = removeAll pat xs := by
  cases pat with
  | nil => exact absurd rfl hp
  | cons p ps =>
    have hsw : startsWith (p :: ps) ((p :: ps) ++ xs) = true :=
      startsWith_append_self _ _
    have hd : ((p :: ps) ++ xs).drop (p :: ps).length = xs := List.drop_left _ _
    show removeAllGo (p :: ps) ((p :: ps) ++ xs).length ((p :: ps) ++ xs) = _
    have hlen : ((p :: ps) ++ xs).length = (ps.length + xs.length) + 1 := by
      simp only [List.length_append, List.length_cons]; omega
    rw [hlen]
    simp only [List.cons_append] at hsw hd ⊢
    simp only [removeAllGo]
    rw [if_pos ⟨hsw, by simp⟩]
    simp only [List.length_cons] at hd ⊢
    rw [hd]
    exact removeAllGo_fuel _ _ _ _ (by omega) (le_refl _)

/-! ### Lemmas about the fetch loop -/

lemma foldl_step_combined (cc : String) (items : List (String × Option String)) :
    ∀ a : Agg, (items.foldl (stepSource cc) a).combined
      = a.combined ++ concatStrs
          ((items.filterMap (fun it => it.2.map (fun t => (it.1, t)))).map (sectionBlock cc)) := by
  induction items with
  | nil => intro a; simp [concatStrs, String.append_empty]
  | cons it rest ih =>
    intro a
    obtain ⟨label, opt⟩ := it
    cases opt with
    | none =>
      simp only [List.foldl_cons, List.filterMap_cons]
      simpa [stepSource] using ih _
    | some t =>
      simp only [List.foldl_cons, List.filterMap_cons]
      rw [ih]
      simp [stepSource, sectionBlock, concatStrs, String.append_assoc]

lemma foldl_step_ids (cc : String) (items : List (String × Option String)) :
    ∀ a : Agg, (items.foldl (stepSource cc) a).ids
      = (items.filterMap (fun it => it.2)).foldl addIds a.ids := by
  induction items with
  | nil => intro a; rfl
  | cons it rest ih =>
    intro a
    obtain ⟨label, opt⟩ := it
    cases opt with
    | none => simpa [stepSource] using ih _
    | some t => simpa [stepSource] using ih _

lemma foldl_step_totals (cc : String) (items : List (String × Option String)) :
    ∀ a : Agg, (items.foldl (stepSource cc) a).totals
      = a.totals ++ items.map
          (fun it => (it.1, match it.2 with
            | none => 0
            | some t => countSeq extinfData t.data)) := by
  induction items with
  | nil => intro a; simp [String.append_empty]
  | cons it rest ih =>
    intro a
    obtain ⟨label, opt⟩ := it
    cases opt with
    | none =>
      simp only [List.foldl_cons, List.map_cons]
      rw [ih]
      simp [stepSource]
    | some t =>
      simp only [List.foldl_cons, List.map_cons]
      rw [ih]
      simp [stepSource]

lemma aggregate_combined (cc : String) (o : Outcomes) :
    (aggregate cc o).combined
      = "#EXTM3U\n\n" ++ concatStrs ((successItems o).map (sectionBlock cc)) :=
  foldl_step_combined cc (srcItems o) initAgg

lemma aggregate_ids (cc : String) (o : Outcomes) :
    (aggregate cc o).ids = (successTexts o).foldl addIds [] :=
  foldl_step_ids cc (srcItems o) initAgg

lemma aggregate_totals (cc : String) (o : Outcomes) :
    (aggregate cc o).totals
      = (srcItems o).map (fun it => (it.1, match it.2 with
          | none => 0
          | some t => countSeq extinfData t.data)) := by
  have h := foldl_step_totals cc (srcItems o) initAgg
  simpa [initAgg] using h

/-! ### Lemmas about the identifier set -/

lemma mem_insertId {a : List String} {c s : String} :
    s ∈ insertId a c ↔ s ∈ a ∨ (s = c ∧ c ≠ "") := by
  unfold insertId
  by_cases h1 : c = ""
  · simp [h1]
  · by_cases h2 : c ∈ a
    · rw [if_neg h1, if_pos h2]
      constructor
      · exact Or.inl
      · rintro (hs | ⟨rfl, -⟩)
        · exact hs
        · exact h2
    · rw [if_neg h1, if_neg h2]
      simp [List.mem_append, h1]

lemma nodup_insertId {a : List String} (h : a.Nodup) (c : String) :
    (insertId a c).Nodup := by
  unfold insertId
  by_cases h1 : c = ""
  · simpa [h1] using h
  · by_cases h2 : c ∈ a
    · simpa [h1, h2] using h
    · rw [if_neg h1, if_neg h2]
      simp [List.nodup_append, h, h2]

lemma mem_foldl_insertId (f : List Char → String) (L : List (List Char)) :
    ∀ (a : List String) (s : String),
      s ∈ L.foldl (fun acc v => insertId acc (f v)) a ↔
        s ∈ a ∨ ∃ v ∈ L, f v = s ∧ s ≠ "" := by
  induction L with
  | nil => simp
  | cons v rest ih =>
    intro a s
    simp only [List.foldl_cons]
    rw [ih, mem_insertId]
    constructor
    · rintro ((hs | ⟨rfl, hne⟩) | ⟨w, hw, hfw, hne⟩)
      · exact Or.inl hs
      · exact Or.inr ⟨v, by simp, rfl, by simpa using hne⟩
      · exact Or.inr ⟨w, by simp [hw], hfw, hne⟩
    · rintro (hs | ⟨w, hw, hfw, hne⟩)
      · exact Or.inl (Or.inl hs)
      · rcases List.mem_cons.mp hw with rfl | hw'
        · exact Or.inl (Or.inr ⟨hfw.symm, by simpa [hfw] using hne⟩)
        · exact Or.inr ⟨w, hw', hfw, hne⟩

lemma nodup_foldl_insertId (f : List Char → String) (L : List (List Char)) :
    ∀ a : List String, a.Nodup →
      (L.foldl (fun acc v => insertId acc (f v)) a).Nodup := by
  induction L with
  | nil => exact fun a h => h
  | cons v rest ih =>
    intro a h
    exact ih _ (nodup_insertId h _)

lemma mem_addIds {a : List String} {t : String} {s : String} :
    s ∈ addIds a t ↔
      s ∈ a ∨ ∃ v ∈ tvgScan t.data, String.mk (pyStrip v) = s ∧ s ≠ "" :=
  mem_foldl_insertId _ _ a s

lemma nodup_addIds {a : List String} (h : a.Nodup) (t : String) :
    (addIds a t).Nodup :=
  nodup_foldl_insertId _ _ a h

lemma mem_foldl_addIds (texts : List String) :
    ∀ (a : List String) (s : String),
      s ∈ texts.foldl addIds a ↔
        s ∈ a ∨ ∃ t ∈ texts, ∃ v ∈ tvgScan t.data, String.mk (pyStrip v) = s ∧ s ≠ "" := by
  induction texts with
  | nil => simp
  | cons t rest ih =>
    intro a s
    simp only [List.foldl_cons]
    rw [ih, mem_addIds]
    constructor
    · rintro ((hs | ⟨v, hv, hfv, hne⟩) | ⟨u, hu, v, hv, hfv, hne⟩)
      · exact Or.inl hs
      · exact Or.inr ⟨t, by simp, v, hv, hfv, hne⟩
      · exact Or.inr ⟨u, by simp [hu], v, hv, hfv, hne⟩
    · rintro (hs | ⟨u, hu, v, hv, hfv, hne⟩)
      · exact Or.inl (Or.inl hs)
      · rcases List.mem_cons.mp hu with rfl | hu'
        · exact Or.inl (Or.inr ⟨v, hv, hfv, hne⟩)
        · exact Or.inr ⟨u, hu', v, hv, hfv, hne⟩

lemma nodup_foldl_addIds (texts : List String) :
    ∀ a : List String, a.Nodup → (texts.foldl addIds a).Nodup := by
  induction texts with
  | nil => exact fun a h => h
  | cons t rest ih => exact fun a h => ih _ (nodup_addIds h t)

lemma mem_aggregate_ids {cc : String} {o : Outcomes} {s : String} :
    s ∈ (aggregate cc o).ids ↔
      ∃ t ∈ successTexts o, ∃ v ∈ tvgScan t.data, String.mk (pyStrip v) = s ∧ s ≠ "" := by
  rw [aggregate_ids]
  simpa using mem_foldl_addIds (successTexts o) [] s

lemma nodup_aggregate_ids (cc : String) (o : Outcomes) :
    (aggregate cc o).ids.Nodup := by
  rw [aggregate_ids]
  exact nodup_foldl_addIds _ [] List.nodup_nil

/-! ### Lemmas about the resolver -/

lemma parseDbLine_key_ne {line : List Char} {kv : String × DbMeta}
    (h : parseDbLine line = some kv) : kv.1 ≠ "" := by
  unfold parseDbLine at h
  by_cases h7 : 7 ≤ (csvSplit line).length
  · rw [if_pos h7] at h
    by_cases hid : stripQ (pyStrip ((csvSplit line).getD 0 [])) ≠ []
    · rw [if_pos hid] at h
      cases h
      intro he
      exact hid (by simpa [String.ext_iff] using he)
    · rw [if_neg hid] at h
      cases h
  · rw [if_neg h7] at h
    cases h

lemma foldl_dbStep_empty_key (L : List (List Char)) :
    ∀ acc : String → Option DbMeta, acc "" = none →
      (L.foldl dbStep acc) "" = none := by
  induction L with
  | nil => exact fun acc h => h
  | cons line rest ih =>
    intro acc h
    apply ih
    unfold dbStep
    cases hp : parseDbLine line with
    | none => exact h
    | some kv =>
      simp only
      rw [if_neg fun he => parseDbLine_key_ne hp he.symm]
      exact h

lemma channelDb_empty_key (reg : Option String) : channelDbOf reg "" = none := by
  cases reg with
  | none => rfl
  | some txt => exact foldl_dbStep_empty_key _ _ rfl

lemma epgFold_append (objs : List EpgObj) (ch : EpgObj) :
    epgFold (objs ++ [ch]) = epgStep (epgFold objs) ch := by
  simp [epgFold, List.foldl_append]

lemma epgFold_spec (objs : List EpgObj) (k : String) :
    ((epgFold objs k).isSome = true ↔ (k ≠ "" ∧ ∃ ch ∈ objs, ch.xmltv_id = some k))
    ∧ ∀ v, epgFold objs k = some v →
        ∃ ch ∈ objs, ch.xmltv_id = some k ∧ k ≠ "" ∧
          v = ⟨ch.site.getD "", ch.site_id.getD ""⟩ := by
  induction objs using List.reverseRecOn with
  | nil => simp [epgFold]
  | append_singleton objs ch ih =>
    rw [epgFold_append]
    unfold epgStep
    cases hid : ch.xmltv_id with
    | none =>
      constructor
      · rw [ih.1]
        constructor
        · rintro ⟨hk, ch', hch', hid'⟩
          exact ⟨hk, ch', by simp [hch'], hid'⟩
        · rintro ⟨hk, ch', hch', hid'⟩
          rcases (List.mem_append.mp hch') with h | h
          · exact ⟨hk, ch', h, hid'⟩
          · rw [List.mem_singleton.mp h] at hid'
            rw [hid] at hid'
            cases hid'
      · intro v hv
        obtain ⟨ch', hch', h1, h2, h3⟩ := ih.2 v hv
        exact ⟨ch', by simp [hch'], h1, h2, h3⟩
    | some id =>
      dsimp only
      by_cases hne : id ≠ ""
      · rw [if_pos hne]
        by_cases hk : k = id
        · subst hk
          constructor
          · rw [if_pos rfl]
            simp only [Option.isSome_some, true_iff]
            exact ⟨hne, ch, by simp, hid⟩
          · intro v hv
            rw [if_pos rfl] at hv
            exact ⟨ch, by simp, hid, hne, (Option.some.inj hv).symm⟩
        · rw [if_neg hk]
          constructor
          · rw [ih.1]
            constructor
            · rintro ⟨hkne, ch', hch', hid'⟩
              exact ⟨hkne, ch', by simp [hch'], hid'⟩
            · rintro ⟨hkne, ch', hch', hid'⟩
              rcases (List.mem_append.mp hch') with h | h
              · exact ⟨hkne, ch', h, hid'⟩
              · rw [List.mem_singleton.mp h] at hid'
                rw [hid] at hid'
                exact absurd (Option.some.inj hid').symm hk
          · intro v hv
            obtain ⟨ch', hch', h1, h2, h3⟩ := ih.2 v hv
            exact ⟨ch', by simp [hch'], h1, h2, h3⟩
      · rw [if_neg hne]
        push_neg at hne
        constructor
        · rw [ih.1]
          constructor
          · rintro ⟨hk, ch', hch', hid'⟩
            exact ⟨hk, ch', by simp [hch'], hid'⟩
          · rintro ⟨hk, ch', hch', hid'⟩
            rcases (List.mem_append.mp hch') with h | h
            · exact ⟨hk, ch', h, hid'⟩
            · rw [List.mem_singleton.mp h] at hid'
              rw [hid] at hid'
              have hke : k = "" := by rw [← Option.some.inj hid', hne]
              exact absurd hke hk
        · intro v hv
          obtain ⟨ch', hch', h1, h2, h3⟩ := ih.2 v hv
          exact ⟨ch', by simp [hch'], h1, h2, h3⟩

/-! ### Concrete inputs used by the witnesses -/

/-- A playlist source containing `tvg-id="abc"`. -/
def srcA : String := "#EXTM3U\n#EXTINF:-1 tvg-id=\"abc\",Alpha\nhttp://a\n"

/-- A second playlist source containing the same `tvg-id="abc"`. -/
def srcB : String := "#EXTM3U\n#EXTINF:-1 tvg-id=\"abc\",Beta\nhttp://b\n"

/-- Two successful fetches sharing one identifier, two failures. -/
def oEx : Outcomes := ⟨some srcA, some srcB, none, none⟩

/-- A registry text: header, the quoted-comma record of the spec scenario,
a record with fewer than 7 fields and a record with an empty identifier. -/
def regTextEx : String :=
  "id,name,alt,net,owners,country,langs\nid1,\"Demo, Channel\",x,y,z,us,\"en;fr\"\nshort,only,three\n,\"No Id\",q,r,s,t,en"

/-- A registry mapping with a single entry. -/
def dbEx : String → Option DbMeta := fun k => if k = "a" then some ⟨"A", "en"⟩ else none

/-- An empty guide-index mapping. -/
def epgEx : String → Option EpgVal := fun _ => none

/-- A guide index: one usable object, one with an empty `xmltv_id`,
one without `xmltv_id`. -/
def idxEx : List EpgObj :=
  [⟨some "a", some "s1", none⟩, ⟨some "", some "s2", some "i2"⟩, ⟨none, some "s3", some "i3"⟩]

/-! ### The claims -/

/-- C1: for every collection of fetched playlist texts, the identifier
list holds exactly one member for each identifier value (after stripping)
that appears in a `tvg-id` attribute of at least one successfully fetched
source, however many sources contain it. -/
theorem claim_C1 (cc : String) (o : Outcomes) (v : List Char)
    (hv : ∃ t ∈ successTexts o, v ∈ tvgScan t.data)
    (hne : String.mk (pyStrip v) ≠ "") :
    ((aggregate cc o).ids).count (String.mk (pyStrip v)) = 1 := by
  obtain ⟨t, ht, hvt⟩ := hv
  have hmem : String.mk (pyStrip v) ∈ (aggregate cc o).ids :=
    mem_aggregate_ids.mpr ⟨t, ht, v, hvt, rfl, hne⟩
  exact List.count_eq_one_of_mem (nodup_aggregate_ids cc o) hmem

/-- C1 witness: `tvg-id="abc"` occurs in two of the four sources and the
identifier list counts it once. -/
theorem claim_C1_witness : ((aggregate "us" oEx).ids).count "abc" = 1 :=
  claim_C1 "us" oEx ("abc").data ⟨srcA, by decide, by decide⟩ (by decide)

/-- C2: relative to any correct gzip codec, a response declared
gzip-encoded (by Content-Encoding or Content-Type) is persisted
byte-identical, and any other response is persisted as a compressed stream
whose decompression gives back exactly the response body. -/
theorem claim_C2 (compress decompress : List Nat → List Nat)
    (hround : ∀ b, decompress (compress b) = b) (r : HttpResponse) :
    (gzipDeclared r = true → persistEpg compress r = r.body)
    ∧ (gzipDeclared r = false → decompress (persistEpg compress r) = r.body) := by
  constructor
  · intro h; simp [persistEpg, h]
  · intro h; simp [persistEpg, h, hround]

/-- C2 witness: the identity codec is a correct codec, and a response with
no gzip declaration round-trips through `persistEpg`. -/
theorem claim_C2_witness :
    gzipDeclared ⟨"text/xml", "", [7, 8, 9]⟩ = false
    ∧ id (persistEpg id ⟨"text/xml", "", [7, 8, 9]⟩) = [7, 8, 9] :=
  ⟨by decide, (claim_C2 id id (fun _ => rfl) ⟨"text/xml", "", [7, 8, 9]⟩).2 (by decide)⟩

/-- C3: every enriched entry has its registry pair (`name`, `lang`)
populated exactly when the identifier is in the registry mapping and its
guide pair (`site`, `site_id`) populated exactly when the identifier is in
the guide mapping — never partially. -/
theorem claim_C3 (db : String → Option DbMeta) (epg : String → Option EpgVal)
    (ids : List String) (e : Entry) (he : e ∈ enrichedOf db epg ids) :
    (e.name.isSome = (db e.xmltv_id).isSome ∧ e.lang.isSome = (db e.xmltv_id).isSome)
    ∧ (e.site.isSome = (epg e.xmltv_id).isSome ∧ e.site_id.isSome = (epg e.xmltv_id).isSome) := by
  obtain ⟨cid, hcid, rfl⟩ := List.mem_map.mp he
  unfold buildEntry
  cases hdb : db cid <;> cases hepg : epg cid <;> simp [hdb, hepg]

/-- C3 witness: the entry built for identifier `"a"` from a registry that
knows it and a guide index that does not. -/
theorem claim_C3_witness :
    ((buildEntry dbEx epgEx "a").name.isSome
        = (dbEx (buildEntry dbEx epgEx "a").xmltv_id).isSome
      ∧ (buildEntry dbEx epgEx "a").lang.isSome
        = (dbEx (buildEntry dbEx epgEx "a").xmltv_id).isSome)
    ∧ ((buildEntry dbEx epgEx "a").site.isSome
        = (epgEx (buildEntry dbEx epgEx "a").xmltv_id).isSome
      ∧ (buildEntry dbEx epgEx "a").site_id.isSome
        = (epgEx (buildEntry dbEx epgEx "a").xmltv_id).isSome) :=
  claim_C3 dbEx epgEx ["a"] (buildEntry dbEx epgEx "a") (by simp [enrichedOf])

/-- C4: the registry resolver skips the header row (`"id"` is not a key),
discards records with fewer than 7 fields (`"short"`) and records with an
empty identifier (the empty key is never mapped), splits only on commas
outside quotes, and maps the scenario record
`id1,"Demo, Channel",…,"en;fr"` to name `Demo, Channel`, language `en`. -/
theorem claim_C4 :
    (∀ reg : Option String, channelDbOf reg "" = none)
    ∧ channelDbOf (some regTextEx) "id1" = some ⟨"Demo, Channel", "en"⟩
    ∧ channelDbOf (some regTextEx) "id" = none
    ∧ channelDbOf (some regTextEx) "short" = none :=
  ⟨channelDb_empty_key, by decide, by decide, by decide⟩

/-- C5: the combined document is exactly the format header followed by one
banner section block per successfully fetched source, in the declared order
country, news, movies, sports, with nothing for failed sources. -/
theorem claim_C5 (cc : String) (o : Outcomes) :
    (aggregate cc o).combined
      = "#EXTM3U\n\n" ++ concatStrs ((successItems o).map (sectionBlock cc)) :=
  aggregate_combined cc o

/-- C6 counterexample: for the source text
`"#EXTM3U\nA\n#EXTM3U\nB"`, which contains a second, non-leading
occurrence of the document marker, the appended body is `"A\n\nB"`: the
non-leading occurrence is NOT preserved, and the body differs from the
text with only the leading marker stripped (and trimmed). -/
theorem claim_C6_counterexample :
    bodyOf "#EXTM3U\nA\n#EXTM3U\nB" = "A\n\nB"
    ∧ containsSeq markerData ("\nA\n#EXTM3U\nB").data = true
    ∧ containsSeq markerData (bodyOf "#EXTM3U\nA\n#EXTM3U\nB").data = false
    ∧ bodyOf "#EXTM3U\nA\n#EXTM3U\nB" ≠ String.mk (pyStrip ("\nA\n#EXTM3U\nB").data) :=
  ⟨by decide, by decide, by decide, by decide⟩

/-- C6 (amended): the body appended for a successful source is the text
with EVERY occurrence of `#EXTM3U` removed and surrounding whitespace
stripped, prefixed by the banner and followed by a blank line; when the
marker occurs only as the leading token, this equals the text with the
leading marker stripped and trimmed. -/
theorem claim_C6_amended (cc label : String) (a : Agg) (rest : String)
    (h : containsSeq markerData rest.data = false) :
    (stepSource cc a (label, some (String.mk (markerData ++ rest.data)))).combined
      = a.combined ++ bannerFor cc label ++ String.mk (pyStrip rest.data) ++ "\n\n" := by
  have hb : bodyOf (String.mk (markerData ++ rest.data)) = String.mk (pyStrip rest.data) := by
    unfold bodyOf
    rw [show (String.mk (markerData ++ rest.data)).data = markerData ++ rest.data from rfl]
    rw [removeAll_append_self _ _ (by decide), removeAll_not_contains h]
  simp [stepSource, hb]

/-- C6 witness: appending the source `"#EXTM3U\nX"` to the initial state
produces the banner followed by `"X"` and a blank line. -/
theorem claim_C6_witness :
    (stepSource "us" initAgg ("news", some (String.mk (markerData ++ ("\nX" : String).data)))).combined
      = initAgg.combined ++ bannerFor "us" "news"
        ++ String.mk (pyStrip (("\nX" : String).data)) ++ "\n\n" :=
  claim_C6_amended "us" "news" initAgg "\nX" (by decide)

/-- C7: an absent endpoint skips the enrichment stage, an empty identifier
set skips it with a distinct reason, in both cases the only file written is
the playlist, and in every run the playlist write comes first. -/
theorem claim_C7 (cc : String) (o : Outcomes) (reg : Option String)
    (idx : Option (List EpgObj)) (url : String) (post : Option HttpResponse)
    (compress : List Nat → List Nat) :
    ((runPipeline cc o reg idx url post compress).writes).head?
        = some (FWrite.text "docs/playlist.m3u8" (aggregate cc o).combined)
    ∧ (url = "" →
        (runPipeline cc o reg idx url post compress).epgOutcome = EpgOutcome.skippedNoUrl
        ∧ (runPipeline cc o reg idx url post compress).writes
            = [FWrite.text "docs/playlist.m3u8" (aggregate cc o).combined])
    ∧ (url ≠ "" → (aggregate cc o).ids = [] →
        (runPipeline cc o reg idx url post compress).epgOutcome = EpgOutcome.skippedNoIds
        ∧ (runPipeline cc o reg idx url post compress).writes
            = [FWrite.text "docs/playlist.m3u8" (aggregate cc o).combined])
    ∧ EpgOutcome.skippedNoUrl ≠ EpgOutcome.skippedNoIds := by
  by_cases hu : url = ""
  · simp [runPipeline, hu]
  · by_cases hi : (aggregate cc o).ids = []
    · cases post <;> simp [runPipeline, hu, hi]
    · cases post <;> simp [runPipeline, hu, hi]

/-- C7 witness: with no endpoint the stage reports `skippedNoUrl`; with an
endpoint but no identifiers it reports `skippedNoIds`; in both runs only
the playlist file is written. -/
theorem claim_C7_witness :
    ((runPipeline "us" ⟨none, none, none, none⟩ none none "" none id).epgOutcome
        = EpgOutcome.skippedNoUrl
      ∧ (runPipeline "us" ⟨none, none, none, none⟩ none none "" none id).writes
        = [FWrite.text "docs/playlist.m3u8" (aggregate "us" ⟨none, none, none, none⟩).combined])
    ∧ ((runPipeline "us" ⟨none, none, none, none⟩ none none "http://e" none id).epgOutcome
        = EpgOutcome.skippedNoIds
      ∧ (runPipeline "us" ⟨none, none, none, none⟩ none none "http://e" none id).writes
        = [FWrite.text "docs/playlist.m3u8" (aggregate "us" ⟨none, none, none, none⟩).combined]) :=
  ⟨(claim_C7 "us" ⟨none, none, none, none⟩ none none "" none id).2.1 rfl,
    (claim_C7 "us" ⟨none, none, none, none⟩ none none "http://e" none id).2.2.1
      (by decide) (by decide)⟩

/-- C8: the guide-index mapping holds a key exactly when some index object
carries that key as a non-empty `xmltv_id`, and every stored value is the
`{site, site_id}` pair of such an object, with absent fields defaulted to
the empty string. -/
theorem claim_C8 (objs : List EpgObj) (k : String) :
    ((epgMapOf (some objs) k).isSome = true ↔ (k ≠ "" ∧ ∃ ch ∈ objs, ch.xmltv_id = some k))
    ∧ ∀ v, epgMapOf (some objs) k = some v →
        ∃ ch ∈ objs, ch.xmltv_id = some k ∧ k ≠ "" ∧
          v = ⟨ch.site.getD "", ch.site_id.getD ""⟩ :=
  epgFold_spec objs k

/-- C8 witness: the value stored for `"a"` comes from the one index object
with `xmltv_id = "a"`, its absent `site_id` defaulted to `""`. -/
theorem claim_C8_witness :
    ∃ ch ∈ idxEx, ch.xmltv_id = some "a" ∧ ("a" : String) ≠ "" ∧
      (⟨"s1", ""⟩ : EpgVal) = ⟨ch.site.getD "", ch.site_id.getD ""⟩ :=
  (claim_C8 idxEx "a").2 ⟨"s1", ""⟩ (by decide)

/-- C9: a failed source fetch records count 0 and contributes no
identifiers (the identifier set comes from the successful texts only); a
failed registry or index load yields an empty mapping; and neither failure
reaches the rest of the pipeline: combined text, identifier set and the
playlist write are unchanged, and each mapping is unaffected by the other
load's failure. -/
theorem claim_C9 (cc : String) (o : Outcomes) (reg : Option String)
    (idx : Option (List EpgObj)) (url : String) (post : Option HttpResponse)
    (compress : List Nat → List Nat) :
    (o.country = none → ("country", 0) ∈ (aggregate cc o).totals)
    ∧ (o.news = none → ("news", 0) ∈ (aggregate cc o).totals)
    ∧ (o.movies = none → ("movies", 0) ∈ (aggregate cc o).totals)
    ∧ (o.sports = none → ("sports", 0) ∈ (aggregate cc o).totals)
    ∧ (aggregate cc o).ids = (successTexts o).foldl addIds []
    ∧ (∀ k, channelDbOf none k = none)
    ∧ (∀ k, epgMapOf none k = none)
    ∧ (runPipeline cc o reg idx url post compress).combined = (aggregate cc o).combined
    ∧ (runPipeline cc o reg idx url post compress).ids = (aggregate cc o).ids
    ∧ ((runPipeline cc o reg idx url post compress).writes).head?
        = some (FWrite.text "docs/playlist.m3u8" (aggregate cc o).combined)
    ∧ (runPipeline cc o none idx url post compress).epgMap = epgMapOf idx
    ∧ (runPipeline cc o reg none url post compress).db = channelDbOf reg := by
  refine ⟨?_, ?_, ?_, ?_, aggregate_ids cc o, fun k => rfl, fun k => rfl, ?_, ?_, ?_, ?_, ?_⟩
  · intro h; simp [aggregate_totals, srcItems, h]
  · intro h; simp [aggregate_totals, srcItems, h]
  · intro h; simp [aggregate_totals, srcItems, h]
  · intro h; simp [aggregate_totals, srcItems, h]
  · by_cases hu : url = ""
    · simp [runPipeline, hu]
    · by_cases hi : (aggregate cc o).ids = [] <;> cases post <;> simp [runPipeline, hu, hi]
  · by_cases hu : url = ""
    · simp [runPipeline, hu]
    · by_cases hi : (aggregate cc o).ids = [] <;> cases post <;> simp [runPipeline, hu, hi]
  · by_cases hu : url = ""
    · simp [runPipeline, hu]
    · by_cases hi : (aggregate cc o).ids = [] <;> cases post <;> simp [runPipeline, hu, hi]
  · by_cases hu : url = ""
    · simp [runPipeline, hu]
    · by_cases hi : (aggregate cc o).ids = [] <;> cases post <;> simp [runPipeline, hu, hi]
  · by_cases hu : url = ""
    · simp [runPipeline, hu]
    · by_cases hi : (aggregate cc o).ids = [] <;> cases post <;> simp [runPipeline, hu, hi]

/-- C9 witness: with the news, movies and sports fetches failed, each
records a zero count, and a run with the registry load failed still keeps
the guide mapping of the successful index load. -/
theorem claim_C9_witness :
    ("news", 0) ∈ (aggregate "us" ⟨some srcA, none, none, none⟩).totals
    ∧ (runPipeline "us" ⟨some srcA, none, none, none⟩ none (some idxEx) "" none id).epgMap
        = epgMapOf (some idxEx) :=
  ⟨(claim_C9 "us" ⟨some srcA, none, none, none⟩ none (some idxEx) "" none id).2.1 rfl,
    (claim_C9 "us" ⟨some srcA, none, none, none⟩ none (some idxEx) "" none id).2.2.2.2.2.2.2.2.2.2.1⟩

/-- C10: identifier values are stripped before insertion: a value that is
all whitespace strips to the empty string and leaves the set unchanged,
every member of the set is non-empty, and two attribute values that strip
to the same identifier collapse to a single member. -/
theorem claim_C10 (cc : String) (o : Outcomes) :
    (∀ (a : List String) (v : List Char), pyStrip v = [] →
      insertId a (String.mk (pyStrip v)) = a)
    ∧ (∀ s ∈ (aggregate cc o).ids, s ≠ "")
    ∧ (∀ (t1 t2 : String) (v1 v2 : List Char),
        t1 ∈ successTexts o → t2 ∈ successTexts o →
        v1 ∈ tvgScan t1.data → v2 ∈ tvgScan t2.data →
        pyStrip v1 = pyStrip v2 → String.mk (pyStrip v1) ≠ "" →
        String.mk (pyStrip v2) ∈ (aggregate cc o).ids
        ∧ ((aggregate cc o).ids).count (String.mk (pyStrip v1)) = 1) := by
  refine ⟨?_, ?_, ?_⟩
  · intro a v hv
    rw [hv]
    rfl
  · intro s hs
    obtain ⟨t, ht, v, hv, hfv, hne⟩ := mem_aggregate_ids.mp hs
    exact hne
  · intro t1 t2 v1 v2 ht1 ht2 hv1 hv2 heq hne
    have hmem : String.mk (pyStrip v1) ∈ (aggregate cc o).ids :=
      mem_aggregate_ids.mpr ⟨t1, ht1, v1, hv1, rfl, hne⟩
    exact ⟨heq ▸ hmem, List.count_eq_one_of_mem (nodup_aggregate_ids cc o) hmem⟩

/-- C10 witness: a whitespace-only `tvg-id` value (which occurs as a raw
capture) strips to the empty string and leaves the identifier list
unchanged at insertion. -/
theorem claim_C10_witness :
    insertId ["x"] (String.mk (pyStrip ((" " : String).data))) = ["x"] :=
  (claim_C10 "us" ⟨none, none, none, none⟩).1 ["x"] ((" " : String).data) (by decide)

end MyTV
